import Mathlib

/- Shallow embedding of the open-bomberman simulation core
   (src/common/direction.rs, src/model/{stage,bomb,player,world}.rs).

   Machine integers (i8, i16) are modelled as Int with explicit wrapping
   at each arithmetic operation; Rust panics (failed usize::try_from
   unwraps, ndarray out-of-range indexing, Vec index out of range) are
   modelled as Option.none propagating outward; Rust Result<T, &str> is
   modelled as Except String T. -/

/-- Two's-complement wrap-around of an i8 arithmetic result. -/
def wrap8 (x : Int) : Int := Int.bmod x 256

/-- Two's-complement wrap-around of an i16 arithmetic result. -/
def wrap16 (x : Int) : Int := Int.bmod x 65536

theorem wrap8_eq_self {x : Int} (h1 : -128 ≤ x) (h2 : x ≤ 127) : wrap8 x = x := by
  simp only [wrap8, Int.bmod]
  split <;> omega

theorem wrap16_eq_self {x : Int} (h1 : -32768 ≤ x) (h2 : x ≤ 32767) : wrap16 x = x := by
  simp only [wrap16, Int.bmod]
  split <;> omega

/-- src/common/direction.rs: the four cardinal and four diagonal directions. -/
inductive Direction where
  | North | South | West | East
  | Northwest | Northeast | Southwest | Southeast
deriving DecidableEq, Repr

/-- src/model/stage.rs: `Tile`, one of Ground, SoftWall, HardWall. -/
inductive Tile where
  | Ground | SoftWall | HardWall
deriving DecidableEq, Repr

/-- src/model/stage.rs `Tile::is_wall`. -/
def Tile.is_wall : Tile → Bool
  | Tile.Ground => false
  | Tile.SoftWall => true
  | Tile.HardWall => true

/-- `usize::try_from(i : i8)`: succeeds exactly on non-negative values
    (`none` models the `.unwrap()` panic). -/
def tryFromUsize (i : Int) : Option Nat :=
  if 0 ≤ i then some i.toNat else none

/-- `ndarray` 2-D read `tiles[[a, b]]` (row index `a`, column index `b`);
    `none` models the out-of-range indexing panic. -/
def ndGet (tiles : List (List Tile)) (a b : Nat) : Option Tile :=
  (tiles.get? a).bind fun row => row.get? b

/-- `ndarray` 2-D write `tiles[[a, b]] = t`; `none` models the
    out-of-range indexing panic. -/
def ndSet (tiles : List (List Tile)) (a b : Nat) (t : Tile) : Option (List (List Tile)) :=
  match ndGet tiles a b with
  | none => none
  | some _ => some (tiles.set a ((tiles.getD a []).set b t))

/-- src/model/stage.rs `StageImpl`: `dimensions` is the ndarray shape
    `(shape[0], shape[1])` converted to i8, `tiles` the row-major grid. -/
structure StageImpl where
  dimensions : Int × Int
  tiles : List (List Tile)
deriving DecidableEq, Repr

/-- src/model/stage.rs `StageImpl::out_of_bounds` — its body as written in
    the source (note: it computes the in-bounds predicate). -/
def StageImpl.out_of_bounds (s : StageImpl) (p : Int × Int) : Bool :=
  decide (0 ≤ p.1) && decide (p.1 ≤ s.dimensions.1 - 1)
    && decide (0 ≤ p.2) && decide (p.2 ≤ s.dimensions.2 - 1)

/-- src/model/stage.rs `StageImpl::get_usize_position`. -/
def StageImpl.get_usize_position (_ : StageImpl) (p : Int × Int) : Option (Nat × Nat) :=
  (tryFromUsize p.1).bind fun ux => (tryFromUsize p.2).map fun uy => (ux, uy)

/-- src/model/stage.rs `StageImpl::get_tile`: branches on
    `!out_of_bounds(position)`, indexes `tiles[[y, x]]` in the first branch
    and returns `Err("Position is out of bounds.")` in the other. -/
def StageImpl.get_tile (s : StageImpl) (p : Int × Int) : Option (Except String Tile) :=
  if !(s.out_of_bounds p) then
    (s.get_usize_position p).bind fun up =>
      (ndGet s.tiles up.2 up.1).map fun t => Except.ok t
  else
    some (Except.error "Position is out of bounds.")

/-- src/model/stage.rs `StageImpl::set_tile`: no bounds check, writes
    `tiles[[y, x]]` on a copy of the grid. -/
def StageImpl.set_tile (s : StageImpl) (p : Int × Int) (t : Tile) : Option StageImpl :=
  (s.get_usize_position p).bind fun up =>
    (ndSet s.tiles up.2 up.1 t).map fun nt =>
      { dimensions := s.dimensions, tiles := nt }

/-- src/model/stage.rs `StageImpl::copy`. -/
def StageImpl.copy (s : StageImpl) : StageImpl :=
  { dimensions := s.dimensions, tiles := s.tiles }

/-- A concrete 2×2 all-distinct stage used to evaluate the Stage claims. -/
def stage2 : StageImpl :=
  { dimensions := (2, 2)
    tiles := [[Tile.Ground, Tile.SoftWall], [Tile.HardWall, Tile.Ground]] }

/-- C1: the spec claims `get_tile` returns Ok(tile) on in-bounds positions and
    an out-of-bounds error on out-of-bounds ones. The code does the opposite:
    on the 2×2 stage, position (0,0) (in bounds, tile Ground) yields the
    out-of-bounds error, and position (2,0) (out of bounds) reaches the
    unchecked array access and panics (`none`). -/
theorem c1_get_tile_bounds_inverted :
    stage2.get_tile (0, 0) = some (Except.error "Position is out of bounds.")
      ∧ stage2.get_tile (2, 0) = none :=
  ⟨rfl, rfl⟩

/-- C4: the spec claims `set_tile(p,t).get_tile(p) = Ok(t)` for in-bounds p.
    On the 2×2 stage with p = (0,0), t = SoftWall, the write itself lands in
    the grid (tiles[0][0] becomes SoftWall), but the read back returns the
    out-of-bounds error instead of Ok(SoftWall), because `get_tile`'s bounds
    check is inverted. -/
theorem c4_set_get_roundtrip_fails :
    (stage2.set_tile (0, 0) Tile.SoftWall).map (fun s => s.tiles)
        = some [[Tile.SoftWall, Tile.SoftWall], [Tile.HardWall, Tile.Ground]]
      ∧ (stage2.set_tile (0, 0) Tile.SoftWall).map (fun s => s.get_tile (0, 0))
        = some (some (Except.error "Position is out of bounds.")) :=
  ⟨rfl, rfl⟩

/-- src/model/bomb.rs `FlameImpl`: one directional ray of a blast, a segment
    from `start` to `end` with a remaining `spread_range` (i8). -/
structure FlameImpl where
  start : Int × Int
  «end» : Int × Int
  direction : Direction
  spread_range : Int
deriving DecidableEq, Repr

/-- src/model/bomb.rs `FlameImpl::new`. -/
def FlameImpl.new (start «end» : Int × Int) (direction : Direction)
    (spread_range : Int) : FlameImpl :=
  { start := start, «end» := «end», direction := direction, spread_range := spread_range }

/-- src/model/bomb.rs `FlameImpl::next_position`: one cell beyond `end` in
    `direction` (i8 coordinate arithmetic); diagonal directions fall back to
    returning `end` unchanged. -/
def FlameImpl.next_position (f : FlameImpl) : Int × Int :=
  match f.direction with
  | Direction.North => (f.«end».1, wrap8 (f.«end».2 + 1))
  | Direction.South => (f.«end».1, wrap8 (f.«end».2 - 1))
  | Direction.West => (wrap8 (f.«end».1 - 1), f.«end».2)
  | Direction.East => (wrap8 (f.«end».1 + 1), f.«end».2)
  | _ => f.«end»

/-- src/model/bomb.rs `FlameImpl::tick`. -/
def FlameImpl.tick (f : FlameImpl) (hit_wall : Bool) : FlameImpl :=
  match hit_wall with
  | true =>
    { start := f.start, «end» := f.«end», direction := f.direction, spread_range := 0 }
  | false =>
    if f.spread_range = 0 then
      { start := f.start, «end» := f.«end», direction := f.direction, spread_range := 0 }
    else
      { start := f.start, «end» := f.next_position, direction := f.direction,
        spread_range := wrap8 (f.spread_range - 1) }

/-- src/model/bomb.rs `BlastImpl`: a bundle of up to four flames sharing one
    `spread_done` flag and one `lifetime` (i8). -/
structure BlastImpl where
  center : Int × Int
  flames : List FlameImpl
  spread_done : Bool
  lifetime : Int
deriving DecidableEq, Repr

/-- src/model/bomb.rs `BlastImpl::new`: one flame per free cardinal neighbor,
    each starting and ending one cell from `center`, with
    `spread_range = range`; `spread_done` false, `lifetime` 60. Push order is
    up, down, left, right. -/
def BlastImpl.new (center : Int × Int) (range : Int)
    (up_free down_free left_free right_free : Bool) : BlastImpl :=
  let up_point : Int × Int := (center.1, wrap8 (center.2 + 1))
  let down_point : Int × Int := (center.1, wrap8 (center.2 - 1))
  let left_point : Int × Int := (wrap8 (center.1 - 1), center.2)
  let right_point : Int × Int := (wrap8 (center.1 + 1), center.2)
  let flames : List FlameImpl :=
    (if up_free then [FlameImpl.new up_point up_point Direction.North range] else [])
      ++ (if down_free then [FlameImpl.new down_point down_point Direction.South range] else [])
      ++ (if left_free then [FlameImpl.new left_point left_point Direction.West range] else [])
      ++ (if right_free then [FlameImpl.new right_point right_point Direction.East range] else [])
  { center := center, flames := flames, spread_done := false, lifetime := 60 }

/-- src/model/bomb.rs `BlastImpl::calc_flames`: the loop
    `for i in 0..flames.len() { push(flames[i].tick(hit_wall[i])) }`, where
    `hit_wall[i]` panics (`none`) once `i` reaches `hit_wall.len()`. -/
def calc_flames_loop : List FlameImpl → List Bool → Option (List FlameImpl)
  | [], _ => some []
  | _ :: _, [] => none
  | f :: fs, h :: hs => (calc_flames_loop fs hs).map fun rest => f.tick h :: rest

/-- src/model/bomb.rs `BlastImpl::calc_flames`. -/
def BlastImpl.calc_flames (b : BlastImpl) (hit_wall : List Bool) : Option (List FlameImpl) :=
  calc_flames_loop b.flames hit_wall

/-- src/model/bomb.rs `BlastImpl::calc_lifetime`: `lifetime - 1` if
    `spread_done` already holds, else unchanged (i8 subtraction). -/
def BlastImpl.calc_lifetime (b : BlastImpl) : Int :=
  match b.spread_done with
  | true => wrap8 (b.lifetime - 1)
  | false => b.lifetime

/-- src/model/bomb.rs `BlastImpl::calc_spread_done`: once true stays true,
    else the conjunction of `spread_range == 0` over all flames. -/
def BlastImpl.calc_spread_done (b : BlastImpl) : Bool :=
  match b.spread_done with
  | true => true
  | false => b.flames.foldl (fun all_done f => all_done && decide (f.spread_range = 0)) true

/-- src/model/bomb.rs `BlastImpl::tick` — exactly as written in the source:
    `new_spread_done` is computed but the produced Blast carries
    `spread_done: self.spread_done` (the previous value). -/
def BlastImpl.tick (b : BlastImpl) (hit_wall : List Bool) : Option BlastImpl :=
  let new_lifetime : Int := b.calc_lifetime
  let _new_spread_done : Bool := b.calc_spread_done
  (b.calc_flames hit_wall).map fun new_flames =>
    { center := b.center, flames := new_flames, spread_done := b.spread_done,
      lifetime := new_lifetime }

/-- src/model/bomb.rs `BlastImpl::next_positions`: the look-ahead cell of each
    flame, in flame order. -/
def BlastImpl.next_positions (b : BlastImpl) : List (Int × Int) :=
  b.flames.map FlameImpl.next_position

/-- src/model/bomb.rs `BombImpl`: position (i8 cell), lifetime (i16),
    piercing flag, range (i8). -/
structure BombImpl where
  position : Int × Int
  lifetime : Int
  piercing : Bool
  range : Int
deriving DecidableEq, Repr

/-- src/model/bomb.rs `BombImpl::new`: lifetime starts at 300. -/
def BombImpl.new (position : Int × Int) (piercing : Bool) (range : Int) : BombImpl :=
  { position := position, lifetime := 300, piercing := piercing, range := range }

/-- src/model/bomb.rs `BombImpl::tick`: decrement lifetime by 1 (i16),
    everything else unchanged. -/
def BombImpl.tick (b : BombImpl) : BombImpl :=
  { position := b.position, lifetime := wrap16 (b.lifetime - 1),
    piercing := b.piercing, range := b.range }

/-- src/model/bomb.rs `BombImpl::can_detonate`: true iff lifetime is 0. -/
def BombImpl.can_detonate (b : BombImpl) : Bool :=
  decide (b.lifetime = 0)

/-- Repeated `BlastImpl::tick` with a hit_wall vector that is false in all
    four positions (all look-ahead cells free). -/
def blastTicksFree (b : BlastImpl) : Nat → Option BlastImpl
  | 0 => some b
  | n + 1 => (b.tick [false, false, false, false]).bind fun b2 => blastTicksFree b2 n

/-- C2: the spec claims `spread_done` becomes true on the first tick at which
    every flame has `spread_range = 0`, after which `lifetime` counts down
    from 60 to 0. In the code, `BlastImpl::tick` computes `new_spread_done`
    but stores the old `spread_done`, so for the blast with range 1 and all
    four directions free, one free tick brings every flame to
    `spread_range = 0` yet `spread_done` is still false, and even after 61
    free ticks (R = 1 plus 60 more) `spread_done` is still false and
    `lifetime` is still 60 instead of 0. -/
theorem c2_spread_done_never_set :
    ((blastTicksFree (BlastImpl.new (0, 0) 1 true true true true) 1).map
        (fun b => (b.flames.map FlameImpl.spread_range, b.spread_done, b.lifetime))
      = some ([0, 0, 0, 0], false, 60))
    ∧ ((blastTicksFree (BlastImpl.new (0, 0) 1 true true true true) 61).map
        (fun b => (b.spread_done, b.lifetime))
      = some (false, 60)) :=
  ⟨rfl, rfl⟩

/-- Repeated `BombImpl::tick`. -/
def bombTicks (b : BombImpl) : Nat → BombImpl
  | 0 => b
  | n + 1 => bombTicks b.tick n

theorem bombTicks_lifetime (b : BombImpl) (k : Nat)
    (hk : (k : Int) ≤ b.lifetime) (hmax : b.lifetime ≤ 32767) :
    (bombTicks b k).lifetime = b.lifetime - k := by
  induction k generalizing b with
  | zero => simp [bombTicks]
  | succ n ih =>
    have hstep : b.tick.lifetime = b.lifetime - 1 := by
      have : wrap16 (b.lifetime - 1) = b.lifetime - 1 :=
        wrap16_eq_self (by omega) (by omega)
      simpa [BombImpl.tick] using this
    have := ih b.tick (by rw [hstep]; omega) (by rw [hstep]; omega)
    rw [bombTicks, this, hstep]
    push_cast
    ring

/-- C6: a Bomb whose lifetime is L > 0 (L within the i16 range) cannot
    detonate after k ticks for any k < L, can detonate exactly after L ticks,
    and each single tick decrements the lifetime by 1 unconditionally (no
    floor at 0, up to i16 wrap-around at -32768) while leaving position,
    piercing and range unchanged. -/
theorem c6_bomb_countdown (b : BombImpl) (L : Int) (hL : b.lifetime = L)
    (h0 : 0 < L) (hmax : L ≤ 32767) :
    (∀ k : Nat, (k : Int) < L → (bombTicks b k).can_detonate = false)
    ∧ (bombTicks b L.toNat).can_detonate = true
    ∧ (∀ b' : BombImpl,
        b'.tick.position = b'.position ∧ b'.tick.piercing = b'.piercing
          ∧ b'.tick.range = b'.range
          ∧ (-32768 < b'.lifetime → b'.lifetime ≤ 32767
              → b'.tick.lifetime = b'.lifetime - 1)) := by
  refine ⟨fun k hk => ?_, ?_, fun b' => ⟨rfl, rfl, rfl, fun h1 h2 => ?_⟩⟩
  · have hlt : (bombTicks b k).lifetime = L - k := by
      subst hL; exact bombTicks_lifetime b k (by omega) (by omega)
    simp [BombImpl.can_detonate, hlt]
    omega
  · have hlt : (bombTicks b L.toNat).lifetime = L - L.toNat := by
      subst hL; exact bombTicks_lifetime b b.lifetime.toNat (by omega) (by omega)
    simp [BombImpl.can_detonate, hlt]
    omega
  · have : wrap16 (b'.lifetime - 1) = b'.lifetime - 1 :=
      wrap16_eq_self (by omega) (by omega)
    simpa [BombImpl.tick] using this

/-- Closed instance of `c6_bomb_countdown` at a freshly created bomb
    (lifetime 300). -/
theorem c6_bomb_countdown_witness :
    (∀ k : Nat, (k : Int) < 300 → (bombTicks (BombImpl.new (3, 3) false 2) k).can_detonate = false)
    ∧ (bombTicks (BombImpl.new (3, 3) false 2) (300 : Int).toNat).can_detonate = true
    ∧ (∀ b' : BombImpl,
        b'.tick.position = b'.position ∧ b'.tick.piercing = b'.piercing
          ∧ b'.tick.range = b'.range
          ∧ (-32768 < b'.lifetime → b'.lifetime ≤ 32767
              → b'.tick.lifetime = b'.lifetime - 1)) :=
  c6_bomb_countdown (BombImpl.new (3, 3) false 2) 300 rfl (by decide) (by decide)

/-- The one-cell displacement of each cardinal direction, as used by
    `FlameImpl::next_position` (North is +y in this code base). -/
def cardStep : Direction → Int × Int
  | Direction.North => (0, 1)
  | Direction.South => (0, -1)
  | Direction.West => (-1, 0)
  | Direction.East => (1, 0)
  | _ => (0, 0)

/-- C7: for a flame with a cardinal direction (coordinates and spread_range
    strictly inside the i8 range, so no wrap-around), `tick true` freezes the
    flame (spread_range 0, segment unchanged), `tick false` on a flame with
    `spread_range = 0` is the identity, and otherwise `tick false` moves
    `end` one cell along the direction and decrements `spread_range` by 1. -/
theorem c7_flame_tick (f : FlameImpl)
    (hd : f.direction = Direction.North ∨ f.direction = Direction.South
        ∨ f.direction = Direction.West ∨ f.direction = Direction.East)
    (hex : -127 ≤ f.«end».1 ∧ f.«end».1 ≤ 126)
    (hey : -127 ≤ f.«end».2 ∧ f.«end».2 ≤ 126)
    (hsr : -128 < f.spread_range ∧ f.spread_range ≤ 127) :
    (f.tick true = { f with spread_range := 0 })
    ∧ (f.spread_range = 0 → f.tick false = f)
    ∧ (f.spread_range ≠ 0 →
        f.tick false =
          { f with
              «end» := (f.«end».1 + (cardStep f.direction).1,
                        f.«end».2 + (cardStep f.direction).2),
              spread_range := f.spread_range - 1 }) := by
  obtain ⟨s, e, d, sr⟩ := f
  refine ⟨rfl, fun h0 => ?_, fun hne => ?_⟩
  · simp only at h0
    subst h0
    simp [FlameImpl.tick]
  · simp only at hex hey hsr hne
    have hw : wrap8 (sr - 1) = sr - 1 := wrap8_eq_self (by omega) (by omega)
    rcases hd with h | h | h | h <;> simp only at h <;> subst h <;>
      simp only [FlameImpl.tick, FlameImpl.next_position, cardStep, if_neg hne, hw,
        wrap8_eq_self (by omega : (-128 : Int) ≤ e.2 + 1) (by omega : e.2 + 1 ≤ 127),
        wrap8_eq_self (by omega : (-128 : Int) ≤ e.2 - 1) (by omega : e.2 - 1 ≤ 127),
        wrap8_eq_self (by omega : (-128 : Int) ≤ e.1 - 1) (by omega : e.1 - 1 ≤ 127),
        wrap8_eq_self (by omega : (-128 : Int) ≤ e.1 + 1) (by omega : e.1 + 1 ≤ 127)] <;>
      simp [Prod.ext_iff] <;> omega

/-- Closed instance of `c7_flame_tick` at a concrete northward flame. -/
theorem c7_flame_tick_witness :
    ((FlameImpl.new (1, 1) (1, 2) Direction.North 3).tick true
        = { FlameImpl.new (1, 1) (1, 2) Direction.North 3 with spread_range := 0 })
    ∧ ((FlameImpl.new (1, 1) (1, 2) Direction.North 3).spread_range = 0 →
        (FlameImpl.new (1, 1) (1, 2) Direction.North 3).tick false
          = FlameImpl.new (1, 1) (1, 2) Direction.North 3)
    ∧ ((FlameImpl.new (1, 1) (1, 2) Direction.North 3).spread_range ≠ 0 →
        (FlameImpl.new (1, 1) (1, 2) Direction.North 3).tick false
          = { FlameImpl.new (1, 1) (1, 2) Direction.North 3 with
                «end» := ((FlameImpl.new (1, 1) (1, 2) Direction.North 3).«end».1
                    + (cardStep (FlameImpl.new (1, 1) (1, 2) Direction.North 3).direction).1,
                  (FlameImpl.new (1, 1) (1, 2) Direction.North 3).«end».2
                    + (cardStep (FlameImpl.new (1, 1) (1, 2) Direction.North 3).direction).2),
                spread_range := (FlameImpl.new (1, 1) (1, 2) Direction.North 3).spread_range - 1 }) :=
  c7_flame_tick (FlameImpl.new (1, 1) (1, 2) Direction.North 3)
    (Or.inl rfl) (by decide) (by decide) (by decide)

theorem calc_flames_loop_isSome (fs : List FlameImpl) (hs : List Bool)
    (h : fs.length ≤ hs.length) : (calc_flames_loop fs hs).isSome = true := by
  induction fs generalizing hs with
  | nil => simp [calc_flames_loop]
  | cons f fs ih =>
    cases hs with
    | nil => simp at h
    | cons hd tl =>
      have := ih tl (by simpa using h)
      cases hloop : calc_flames_loop fs tl with
      | none => rw [hloop] at this; simp at this
      | some rest => simp [calc_flames_loop, hloop]

theorem calc_flames_loop_take (fs : List FlameImpl) (hs : List Bool) :
    calc_flames_loop fs (hs.take fs.length) = calc_flames_loop fs hs := by
  induction fs generalizing hs with
  | nil => simp [calc_flames_loop]
  | cons f fs ih =>
    cases hs with
    | nil => simp [calc_flames_loop]
    | cons hd tl => simp [calc_flames_loop, ih tl]

/-- C10: `BlastImpl::tick` reads `hit_wall` only at indices below the number
    of flames — it succeeds (no out-of-range panic) whenever `hit_wall` has
    at least one entry per flame, and `calc_flames` ignores any entries past
    the flame count; `next_positions` always has exactly one entry per
    flame, so an index-aligned hit_wall vector satisfies the precondition. -/
theorem c10_blast_tick_safe (b : BlastImpl) (hit_wall : List Bool)
    (h : b.flames.length ≤ hit_wall.length) :
    (b.tick hit_wall).isSome = true
    ∧ b.calc_flames hit_wall = b.calc_flames (hit_wall.take b.flames.length)
    ∧ b.next_positions.length = b.flames.length := by
  refine ⟨?_, ?_, ?_⟩
  · have := calc_flames_loop_isSome b.flames hit_wall h
    cases hloop : calc_flames_loop b.flames hit_wall with
    | none => rw [hloop] at this; simp at this
    | some rest => simp [BlastImpl.tick, BlastImpl.calc_flames, hloop]
  · exact (calc_flames_loop_take b.flames hit_wall).symm
  · simp [BlastImpl.next_positions]

/-- Closed instance of `c10_blast_tick_safe` at a concrete two-flame blast
    with a three-entry hit_wall vector. -/
theorem c10_blast_tick_safe_witness :
    ((BlastImpl.new (3, 3) 2 true false false true).tick [true, false, true]).isSome = true
    ∧ (BlastImpl.new (3, 3) 2 true false false true).calc_flames [true, false, true]
        = (BlastImpl.new (3, 3) 2 true false false true).calc_flames
            ([true, false, true].take (BlastImpl.new (3, 3) 2 true false false true).flames.length)
    ∧ (BlastImpl.new (3, 3) 2 true false false true).next_positions.length
        = (BlastImpl.new (3, 3) 2 true false false true).flames.length :=
  c10_blast_tick_safe (BlastImpl.new (3, 3) 2 true false false true)
    [true, false, true] (by decide)

/-- src/model/player.rs `Player`: f32 speed and position are modelled over
    the reals, which preserves the movement arithmetic exactly for the
    values the claims are about. -/
structure Player where
  speed : ℝ
  position : ℝ × ℝ
  direction : Direction

/-- src/model/player.rs `Player::new`: speed defaults to 0.1. -/
noncomputable def Player.new (position : ℝ × ℝ) (direction : Direction) : Player :=
  { speed := 0.1, position := position, direction := direction }

/-- src/model/player.rs `Player::next_position` — the Southeast arm is
    transcribed exactly as in the source (it subtracts the linear speed from
    the x coordinate). -/
noncomputable def Player.next_position (p : Player) : ℝ × ℝ :=
  match p.direction with
  | Direction.North => (p.position.1, p.position.2 + p.speed)
  | Direction.South => (p.position.1, p.position.2 - p.speed)
  | Direction.West => (p.position.1 - p.speed, p.position.2)
  | Direction.East => (p.position.1 + p.speed, p.position.2)
  | Direction.Northwest =>
    (p.position.1 - p.speed / Real.sqrt 2, p.position.2 + p.speed / Real.sqrt 2)
  | Direction.Northeast =>
    (p.position.1 + p.speed / Real.sqrt 2, p.position.2 + p.speed / Real.sqrt 2)
  | Direction.Southwest =>
    (p.position.1 - p.speed / Real.sqrt 2, p.position.2 - p.speed / Real.sqrt 2)
  | Direction.Southeast =>
    (p.position.1 - p.speed / Real.sqrt 2, p.position.2 + p.speed / Real.sqrt 2)

/-- src/model/world.rs `WorldImpl`: one stage plus the player, bomb and
    blast collections. -/
structure WorldImpl where
  stage : StageImpl
  players : List Player
  bombs : List BombImpl
  blasts : List BlastImpl

/-- The body of src/model/world.rs `WorldImpl::is_wall_or_oob`, factored on
    its only input, the world's stage: Ok(tile) maps to `tile.is_wall()`,
    Err maps to true, and a panic inside `get_tile` propagates. -/
def stage_wall_or_oob (st : StageImpl) (position : Int × Int) : Option Bool :=
  match st.get_tile position with
  | some (Except.ok tile) => some tile.is_wall
  | some (Except.error _) => some true
  | none => none

/-- src/model/world.rs `WorldImpl::is_wall_or_oob`. -/
def WorldImpl.is_wall_or_oob (w : WorldImpl) (position : Int × Int) : Option Bool :=
  stage_wall_or_oob w.stage position

/-- src/model/world.rs `WorldImpl::flames_hit_wall`: one `is_wall_or_oob`
    answer per look-ahead position, in order. -/
def hit_wall_loop (st : StageImpl) : List (Int × Int) → Option (List Bool)
  | [] => some []
  | p :: ps =>
    (stage_wall_or_oob st p).bind fun b =>
      (hit_wall_loop st ps).map fun rest => b :: rest

/-- src/model/world.rs `WorldImpl::flames_hit_wall`. -/
def WorldImpl.flames_hit_wall (w : WorldImpl) (blast : BlastImpl) : Option (List Bool) :=
  hit_wall_loop w.stage blast.next_positions

/-- src/model/world.rs `WorldImpl::tick_all_blasts`: tick every blast with
    its resolved hit_wall vector. -/
def tick_all_blasts_loop (st : StageImpl) : List BlastImpl → Option (List BlastImpl)
  | [] => some []
  | b :: bs =>
    (hit_wall_loop st b.next_positions).bind fun hw =>
      (b.tick hw).bind fun b2 =>
        (tick_all_blasts_loop st bs).map fun rest => b2 :: rest

/-- src/model/world.rs `WorldImpl::tick_all_blasts`. -/
def WorldImpl.tick_all_blasts (w : WorldImpl) : Option (List BlastImpl) :=
  tick_all_blasts_loop w.stage w.blasts

/-- src/model/world.rs `WorldImpl::clone`. -/
def WorldImpl.clone (w : WorldImpl) : WorldImpl :=
  { stage := w.stage, players := w.players, bombs := w.bombs, blasts := w.blasts }

/-- src/model/world.rs `WorldImpl::tick_bombs`: every bomb ticked, stage
    copied, players and blasts passed through. -/
def WorldImpl.tick_bombs (w : WorldImpl) : WorldImpl :=
  { stage := w.stage.copy, players := w.players,
    bombs := w.bombs.map BombImpl.tick, blasts := w.blasts }

/-- src/model/world.rs `WorldImpl::tick_blasts`. -/
def WorldImpl.tick_blasts (w : WorldImpl) : Option WorldImpl :=
  w.tick_all_blasts.map fun nbl =>
    { stage := w.stage.copy, players := w.players, bombs := w.bombs, blasts := nbl }

/-- The conditional `if cond { new_stage = new_stage.set_tile(p, Ground) }`
    inside `WorldImpl::check_bombs`. -/
def set_ground_if (cond : Bool) (st : StageImpl) (p : Int × Int) : Option StageImpl :=
  if cond then st.set_tile p Tile.Ground else some st

/-- src/model/world.rs `WorldImpl::check_bombs`, as a loop over the bomb
    list threading the new stage and the new bomb and blast vectors.
    `st_query` is the original stage (`self`), which the free-direction
    queries read; a bomb with lifetime 0 detonates, any other bomb is kept. -/
def check_bombs_loop (st_query : StageImpl) :
    List BombImpl → StageImpl → List BombImpl → List BlastImpl →
      Option (StageImpl × List BombImpl × List BlastImpl)
  | [], new_stage, new_bombs, new_blasts => some (new_stage, new_bombs, new_blasts)
  | bomb :: rest, new_stage, new_bombs, new_blasts =>
    if bomb.lifetime = 0 then
      let center := bomb.position
      let up_point : Int × Int := (center.1, wrap8 (center.2 + 1))
      let down_point : Int × Int := (center.1, wrap8 (center.2 - 1))
      let left_point : Int × Int := (wrap8 (center.1 - 1), center.2)
      let right_point : Int × Int := (wrap8 (center.1 + 1), center.2)
      (stage_wall_or_oob st_query up_point).bind fun uw =>
      (stage_wall_or_oob st_query down_point).bind fun dw =>
      (stage_wall_or_oob st_query left_point).bind fun lw =>
      (stage_wall_or_oob st_query right_point).bind fun rw =>
      (set_ground_if uw new_stage up_point).bind fun st1 =>
      (set_ground_if dw st1 down_point).bind fun st2 =>
      (set_ground_if lw st2 left_point).bind fun st3 =>
      (set_ground_if rw st3 right_point).bind fun st4 =>
      check_bombs_loop st_query rest st4 new_bombs
        (new_blasts ++ [BlastImpl.new center bomb.range (!uw) (!dw) (!lw) (!rw)])
    else
      check_bombs_loop st_query rest new_stage (new_bombs ++ [bomb]) new_blasts

/-- src/model/world.rs `WorldImpl::check_bombs`. -/
def WorldImpl.check_bombs (w : WorldImpl) : Option WorldImpl :=
  (check_bombs_loop w.stage w.bombs w.stage.copy [] []).map fun r =>
    { stage := r.1, players := w.players, bombs := r.2.1, blasts := r.2.2 }

/-- src/model/world.rs `WorldImpl::tick`:
    `tick_bombs().tick_blasts().check_bombs()` in that order. -/
def WorldImpl.tick (w : WorldImpl) : Option WorldImpl :=
  w.tick_bombs.tick_blasts.bind WorldImpl.check_bombs

/-- src/model/world.rs `WorldImpl::update`: clone, then `tick()` once per
    iteration of `0..dt` (empty for non-positive dt). -/
def WorldImpl.update (w : WorldImpl) (dt : Int) : Option WorldImpl :=
  (List.range dt.toNat).foldl (fun acc _ => acc.bind WorldImpl.tick) (some w.clone)

/-- Applying `tick()` n times in sequence (the spec's description of what
    `update(n)` must be observationally equivalent to). -/
def WorldImpl.tickN (w : WorldImpl) : Nat → Option WorldImpl
  | 0 => some w
  | n + 1 => w.tick.bind fun w2 => w2.tickN n

/-- A 3×3 all-Ground stage. -/
def stage3 : StageImpl :=
  { dimensions := (3, 3)
    tiles := [[Tile.Ground, Tile.Ground, Tile.Ground],
              [Tile.Ground, Tile.Ground, Tile.Ground],
              [Tile.Ground, Tile.Ground, Tile.Ground]] }

/-- A world holding one bomb at (1,1) with lifetime 0 and range 2 on the
    3×3 all-Ground stage: every cardinal neighbor is an in-bounds Ground
    tile. -/
def world3 : WorldImpl :=
  { stage := stage3, players := []
    bombs := [{ position := (1, 1), lifetime := 0, piercing := false, range := 2 }]
    blasts := [] }

/-- C3: the spec claims the detonation pass turns a lifetime-0 bomb whose
    four neighbors are in-bounds Ground tiles into a Blast with 4 flames of
    spread_range equal to the bomb's range. In the code, `is_wall_or_oob`
    reports `true` even for the in-bounds Ground neighbor (1,2) — the
    inverted bounds check in `get_tile` makes every in-bounds tile look
    blocked — so all four free flags are false and the produced Blast has no
    flames at all: the bomb is removed and exactly one blast centered at
    (1,1) is added, but with an empty flame list (the stage is unchanged
    only because its neighbors, already Ground, are rewritten to Ground). -/
theorem c3_detonation_blast_has_no_flames :
    world3.is_wall_or_oob (1, 2) = some true
    ∧ world3.check_bombs = some
        { stage := stage3, players := [], bombs := [],
          blasts := [{ center := (1, 1), flames := [], spread_done := false,
                       lifetime := 60 }] } :=
  ⟨rfl, rfl⟩

theorem tickN_succ_bind (w : WorldImpl) (n : Nat) :
    w.tickN (n + 1) = (w.tickN n).bind WorldImpl.tick := by
  induction n generalizing w with
  | zero => simp [WorldImpl.tickN]
  | succ m ih =>
    calc w.tickN (m + 1 + 1)
        = w.tick.bind fun w2 => w2.tickN (m + 1) := rfl
      _ = w.tick.bind fun w2 => (w2.tickN m).bind WorldImpl.tick := by
          exact congrArg _ (funext fun w2 => ih w2)
      _ = (w.tick.bind fun w2 => w2.tickN m).bind WorldImpl.tick := by
          rw [Option.bind_assoc]
      _ = (w.tickN (m + 1)).bind WorldImpl.tick := rfl

theorem update_natCast_succ (w : WorldImpl) (n : Nat) :
    w.update ((n : Int) + 1) = (w.update (n : Int)).bind WorldImpl.tick := by
  have hcast : (((n : Int)) + 1).toNat = n + 1 := by omega
  have hcast0 : ((n : Int)).toNat = n := by omega
  simp only [WorldImpl.update, hcast, hcast0, List.range_succ, List.foldl_append,
    List.foldl_cons, List.foldl_nil]

/-- C5: `update(n)` equals applying `tick()` n times in sequence, for every
    count n representable as an i8 tick argument; in particular `update(0)`
    returns the world unchanged (wrapped in `some`: no tick ran, so no panic
    is possible). -/
theorem c5_update_iterates_tick (w : WorldImpl) (n : Nat) (h : n ≤ 127) :
    w.update (n : Int) = w.tickN n ∧ w.update 0 = some w := by
  refine ⟨?_, rfl⟩
  induction n with
  | zero => rfl
  | succ m ih =>
    have hm : ((m + 1 : Nat) : Int) = (m : Int) + 1 := by push_cast; ring
    rw [hm, update_natCast_succ, ih (by omega), ← tickN_succ_bind]

/-- Closed instance of `c5_update_iterates_tick` at n = 2 on a small world. -/
theorem c5_update_iterates_tick_witness :
    (WorldImpl.mk stage2 [] [] []).update ((2 : Nat) : Int)
        = (WorldImpl.mk stage2 [] [] []).tickN 2
    ∧ (WorldImpl.mk stage2 [] [] []).update 0 = some (WorldImpl.mk stage2 [] [] []) :=
  c5_update_iterates_tick (WorldImpl.mk stage2 [] [] []) 2 (by decide)

theorem check_bombs_loop_spec (q : StageImpl) (l : List BombImpl) :
    ∀ (st : StageImpl) (nb : List BombImpl) (nbl : List BlastImpl)
      (r : StageImpl × List BombImpl × List BlastImpl),
      check_bombs_loop q l st nb nbl = some r →
        r.2.2.map BlastImpl.center
            = nbl.map BlastImpl.center
              ++ (l.filter fun b => decide (b.lifetime = 0)).map BombImpl.position
          ∧ r.2.1 = nb ++ l.filter fun b => !decide (b.lifetime = 0) := by
  induction l with
  | nil =>
    intro st nb nbl r hr
    simp only [check_bombs_loop, Option.some.injEq] at hr
    subst hr
    simp
  | cons bomb rest ih =>
    intro st nb nbl r hr
    by_cases h0 : bomb.lifetime = 0
    · simp only [check_bombs_loop, if_pos h0, Option.bind_eq_some] at hr
      obtain ⟨uw, -, dw, -, lw, -, rw1, -, st1, -, st2, -, st3, -, st4, -, hrec⟩ := hr
      obtain ⟨h1, h2⟩ := ih st4 nb _ r hrec
      constructor
      · rw [h1]
        simp [List.filter_cons, h0, BlastImpl.new]
      · rw [h2]
        simp [List.filter_cons, h0]
    · simp only [check_bombs_loop, if_neg h0] at hr
      obtain ⟨h1, h2⟩ := ih st (nb ++ [bomb]) nbl r hr
      constructor
      · rw [h1]
        simp [List.filter_cons, h0]
      · rw [h2]
        simp [List.filter_cons, h0]

/-- C9: `check_bombs` rebuilds the blast collection from scratch — its
    result does not depend on the incoming blasts at all (so no blast
    survives into the next tick), and on success the new blasts are exactly
    one per lifetime-0 bomb of this call, centered at those bombs'
    positions, while the surviving bombs are exactly the others. -/
theorem c9_blasts_replaced_each_check (w : WorldImpl) (bs : List BlastImpl) :
    WorldImpl.check_bombs { w with blasts := bs } = w.check_bombs
    ∧ ∀ r : WorldImpl, w.check_bombs = some r →
        r.blasts.map BlastImpl.center
            = (w.bombs.filter fun b => decide (b.lifetime = 0)).map BombImpl.position
          ∧ r.bombs = w.bombs.filter fun b => !decide (b.lifetime = 0) := by
  refine ⟨rfl, fun r hr => ?_⟩
  simp only [WorldImpl.check_bombs, Option.map_eq_some'] at hr
  obtain ⟨r0, hr0, hfr⟩ := hr
  obtain ⟨h1, h2⟩ := check_bombs_loop_spec w.stage w.bombs _ _ _ r0 hr0
  subst hfr
  constructor
  · simpa using h1
  · simpa using h2

/-- The check_bombs result on `world3`, written out. -/
def cr3 : WorldImpl :=
  { stage := stage3, players := [], bombs := [],
    blasts := [{ center := (1, 1), flames := [], spread_done := false, lifetime := 60 }] }

/-- Closed instance of `c9_blasts_replaced_each_check` on `world3` with a
    stale blast in the incoming collection, the inner implication discharged
    at the concrete check_bombs result `cr3`. -/
theorem c9_blasts_replaced_each_check_witness :
    WorldImpl.check_bombs { world3 with blasts := [BlastImpl.new (1, 1) 1 false false false false] }
        = world3.check_bombs
    ∧ (cr3.blasts.map BlastImpl.center
          = (world3.bombs.filter fun b => decide (b.lifetime = 0)).map BombImpl.position
        ∧ cr3.bombs = world3.bombs.filter fun b => !decide (b.lifetime = 0)) :=
  ⟨(c9_blasts_replaced_each_check world3 [BlastImpl.new (1, 1) 1 false false false false]).1,
   (c9_blasts_replaced_each_check world3 []).2 cr3 rfl⟩

/-- C8: the spec requires the Southeast case of `Player::next_position` to
    increase the x coordinate by speed / sqrt(2). In the code the Southeast
    arm subtracts the linear speed from x (same x displacement as
    Southwest/Northwest): for the default player at (2, 2) facing Southeast,
    the next x coordinate is 2 - 0.1 / sqrt 2, strictly below the current x
    coordinate 2. -/
theorem c8_southeast_x_decreases :
    ((Player.new (2, 2) Direction.Southeast).next_position).1
      = 2 - 0.1 / Real.sqrt 2
    ∧ ((Player.new (2, 2) Direction.Southeast).next_position).1
      < (Player.new (2, 2) Direction.Southeast).position.1 := by
  have h2 : (0 : ℝ) < Real.sqrt 2 := Real.sqrt_pos.mpr (by norm_num)
  have hls : (0 : ℝ) < (0.1 : ℝ) / Real.sqrt 2 := div_pos (by norm_num) h2
  constructor
  · rfl
  · show (2 : ℝ) - 0.1 / Real.sqrt 2 < 2
    linarith
